import Mathlib

/-!
Verification of the alert-system repository (src/alert_system.py).

The source computes, per metric series, a rolling IQR-based boundary
envelope (`check_anomaly`) or a fixed envelope (`check_anomaly_ctr`),
and a dispatcher loop (`get_alert`) that walks the configured metric
list, evaluates each metric, and sends a message plus chart for each
alerting metric.

Embedding conventions:
* a metric series is the list of its values (`Series := List ℚ`), in
  time order; the pandas NaN of an undefined statistic is `Option.none`;
* pandas `shift(1).rolling(n).quantile(q)` at position `i` is the
  linear-interpolation quantile of the `n` values at positions
  `i-n .. i-1`, defined only when `n ≤ i` (default `min_periods`
  equals the window, and the shifted series starts with NaN);
* pandas `rolling(n, center=True, min_periods=1).mean()` at position
  `i` averages the defined entries at positions
  `i-(n-1)+(n-1)/2 .. i+(n-1)/2` clipped to the series, `none` when no
  entry there is defined;
* a comparison of a value with NaN is `false`, as in pandas;
* `df[...].iloc[-1]` on an empty frame raises `IndexError`; a verdict
  is therefore an `Option Bool`, with `none` for the raised error.
-/

namespace AlertSystem

abbrev Series := List ℚ

/-- Ascending sort of the window values (quantiles sort their input). -/
def sortQ (l : List ℚ) : List ℚ := List.insertionSort (· ≤ ·) l

/-- The integer part of a fractional rank. -/
def rankIdx (h : ℚ) : ℕ := h.floor.toNat

/-- Linear-interpolation lookup at fractional rank `h` in a sorted list,
as numpy quantiles do: with `f = ⌊h⌋`, the value is
`s[f] + (h - f) * (s[f+1] - s[f])`, the last entry standing in when
`f+1` is out of range. -/
def interpAt (s : List ℚ) (h : ℚ) : ℚ :=
  s.getD (rankIdx h) 0 +
    (h - (rankIdx h : ℚ)) *
      (s.getD (rankIdx h + 1) (s.getD (rankIdx h) 0) - s.getD (rankIdx h) 0)

/-- The `q`-quantile of a list of values with linear interpolation
(the pandas/numpy default): rank `h = q * (m - 1)` in the sorted list. -/
def quantile (q : ℚ) (l : List ℚ) : ℚ :=
  interpAt (sortQ l) (q * ((l.length : ℚ) - 1))

/-- The lagged window of `df[metric].shift(1).rolling(n)` at position `i`:
the `n` values strictly before `i`, defined only when `n ≤ i`. -/
def lagWindow (xs : Series) (n i : ℕ) : Option (List ℚ) :=
  if n ≤ i then some ((xs.drop (i - n)).take n) else none

/-- Column `q25`: `df[metric].shift(1).rolling(n).quantile(0.25)`. -/
def q25 (xs : Series) (n i : ℕ) : Option ℚ :=
  (lagWindow xs n i).map (quantile (1/4))

/-- Column `q75`: `df[metric].shift(1).rolling(n).quantile(0.75)`. -/
def q75 (xs : Series) (n i : ℕ) : Option ℚ :=
  (lagWindow xs n i).map (quantile (3/4))

/-- Column `iqr = q75 - q25` (NaN-propagating column arithmetic). -/
def iqr (xs : Series) (n i : ℕ) : Option ℚ :=
  match q75 xs n i, q25 xs n i with
  | some u, some l => some (u - l)
  | _, _ => none

/-- Raw column `up = q75 + a*iqr` before smoothing. -/
def upRaw (xs : Series) (a : ℚ) (n i : ℕ) : Option ℚ :=
  match q75 xs n i, iqr xs n i with
  | some u, some d => some (u + a * d)
  | _, _ => none

/-- Raw column `low = q25 - a*iqr` before smoothing. -/
def lowRaw (xs : Series) (a : ℚ) (n i : ℕ) : Option ℚ :=
  match q25 xs n i, iqr xs n i with
  | some l, some d => some (l - a * d)
  | _, _ => none

/-- Index window of `rolling(n, center=True)` at position `i`, clipped to
`[0, len)`: pandas shifts the trailing window forward by `(n-1)/2`. -/
def centerIdx (len n i : ℕ) : List ℕ :=
  (List.range len).filter (fun j => i + (n - 1) / 2 ≤ j + (n - 1) ∧ j ≤ i + (n - 1) / 2)

/-- `rolling(n, center=True, min_periods=1).mean()` over an optional-valued
column `g`: the mean of the defined entries in the centered window,
`none` when there is none. -/
def smoothAt (g : ℕ → Option ℚ) (len n i : ℕ) : Option ℚ :=
  let vs := (centerIdx len n i).filterMap g
  if vs.length = 0 then none else some (vs.sum / (vs.length : ℚ))

/-- Final column `low`: the centered rolling mean of the raw lower bound. -/
def low (xs : Series) (a : ℚ) (n i : ℕ) : Option ℚ :=
  smoothAt (lowRaw xs a n) xs.length n i

/-- Final column `up`: the centered rolling mean of the raw upper bound. -/
def up (xs : Series) (a : ℚ) (n i : ℕ) : Option ℚ :=
  smoothAt (upRaw xs a n) xs.length n i

/-- Verdict of `check_anomaly(df, metric, a, n)`: alert iff the last value
lies strictly below the last `low` or strictly above the last `up`
(a NaN bound compares false); `none` models the `IndexError` that
`df[metric].iloc[-1]` raises on an empty series. -/
def check_anomaly (xs : Series) (a : ℚ) (n : ℕ) : Option Bool :=
  match xs.getLast? with
  | none => none
  | some v =>
    some ((match low xs a n (xs.length - 1) with
           | some l => decide (v < l)
           | none => false)
       || (match up xs a n (xs.length - 1) with
           | some u => decide (u < v)
           | none => false))

/-- Fixed lower bound set by `check_anomaly_ctr`: `df['low'] = 0.19`. -/
def ctr_low : ℚ := 19/100

/-- Fixed upper bound set by `check_anomaly_ctr`: `df['up'] = 0.23`. -/
def ctr_up : ℚ := 23/100

/-- Verdict of `check_anomaly_ctr(df, metric)`: alert iff the last value
lies strictly outside the constant bounds `[0.19, 0.23]`; `none` models
the `IndexError` raised on an empty series. -/
def check_anomaly_ctr (xs : Series) : Option Bool :=
  match xs.getLast? with
  | none => none
  | some v => some (decide (v < ctr_low) || decide (ctr_up < v))

/-! ### Spec-side formulation of the adaptive envelope

These definitions follow the wording of the specification (section 4.1)
rather than the pandas idioms of the source; the refinement theorem for
the envelope compares them with the source-side definitions above. -/

/-- Spec wording: the `window_size` values immediately preceding `i`
(excluding `i` itself), undefined when there are fewer than `n` of them. -/
def spec_window (xs : Series) (n i : ℕ) : Option (List ℚ) :=
  if n ≤ i then some ((xs.take i).drop (i - n)) else none

/-- Spec step 1: `q25[i]` = 25th percentile of the preceding window. -/
def spec_q25 (xs : Series) (n i : ℕ) : Option ℚ :=
  (spec_window xs n i).map (quantile (1/4))

/-- Spec step 1: `q75[i]` = 75th percentile of the preceding window. -/
def spec_q75 (xs : Series) (n i : ℕ) : Option ℚ :=
  (spec_window xs n i).map (quantile (3/4))

/-- Spec step 2: `iqr[i] = q75[i] - q25[i]`. -/
def spec_iqr (xs : Series) (n i : ℕ) : Option ℚ :=
  match spec_q75 xs n i, spec_q25 xs n i with
  | some u, some l => some (u - l)
  | _, _ => none

/-- Spec step 3: `up_raw[i] = q75[i] + spread_factor * iqr[i]`. -/
def spec_upRaw (xs : Series) (a : ℚ) (n i : ℕ) : Option ℚ :=
  match spec_q75 xs n i, spec_iqr xs n i with
  | some u, some d => some (u + a * d)
  | _, _ => none

/-- Spec step 3: `low_raw[i] = q25[i] - spread_factor * iqr[i]`. -/
def spec_lowRaw (xs : Series) (a : ℚ) (n i : ℕ) : Option ℚ :=
  match spec_q25 xs n i, spec_iqr xs n i with
  | some l, some d => some (l - a * d)
  | _, _ => none

/-- Spec step 4 window: positions `i - ⌊w/2⌋ .. i + ⌊w/2⌋`, clipped at the
series edges (the ℕ subtraction clips the left edge at 0). -/
def spec_centerIdx (len n i : ℕ) : List ℕ :=
  (List.range len).filter (fun j => i - n / 2 ≤ j ∧ j ≤ i + n / 2)

/-- Spec step 4: `low[i]` is the centered moving average of the defined raw
lower bounds in the window, with a minimum of 1 sample. -/
def spec_low (xs : Series) (a : ℚ) (n i : ℕ) : Option ℚ :=
  let vs := (spec_centerIdx xs.length n i).filterMap (spec_lowRaw xs a n)
  if vs.length = 0 then none else some (vs.sum / (vs.length : ℚ))

/-- Spec step 4: `up[i]` is the centered moving average of the defined raw
upper bounds in the window, with a minimum of 1 sample. -/
def spec_up (xs : Series) (a : ℚ) (n i : ℕ) : Option ℚ :=
  let vs := (spec_centerIdx xs.length n i).filterMap (spec_upRaw xs a n)
  if vs.length = 0 then none else some (vs.sum / (vs.length : ℚ))

/-! ### The per-metric frame handed to the estimators

The dispatcher slices `data[['ts', 'date', 'hm', metric]].copy()` and the
estimators annotate this frame with the envelope columns. -/

/-- The four-column frame `df` of one metric, plus the columns the
estimators annotate it with (empty before annotation). -/
structure Frame where
  ts : List ℤ
  date : List ℤ
  hm : List String
  value : List ℚ
  q25c : List (Option ℚ)
  q75c : List (Option ℚ)
  iqrc : List (Option ℚ)
  upc : List (Option ℚ)
  lowc : List (Option ℚ)
deriving DecidableEq

/-- `check_anomaly` at frame level: annotates the frame with the columns
`q25`, `q75`, `iqr`, `up`, `low` and returns the verdict with it. -/
def check_anomaly_frame (f : Frame) (a : ℚ) (n : ℕ) : Option Bool × Frame :=
  let xs := f.value
  let len := xs.length
  (check_anomaly xs a n,
   { f with
      q25c := (List.range len).map (q25 xs n)
      q75c := (List.range len).map (q75 xs n)
      iqrc := (List.range len).map (iqr xs n)
      upc := (List.range len).map (up xs a n)
      lowc := (List.range len).map (low xs a n) })

/-- `check_anomaly_ctr` at frame level: annotates the frame with the
constant `up`/`low` columns and returns the verdict with it. -/
def check_anomaly_ctr_frame (f : Frame) : Option Bool × Frame :=
  (check_anomaly_ctr f.value,
   { f with
      upc := List.replicate f.value.length (some ctr_up)
      lowc := List.replicate f.value.length (some ctr_low) })

/-! ### The dispatcher loop of `get_alert`

The loop walks `metrics_list` in order; `ctr` uses the fixed strategy,
every other metric the adaptive one with the default parameters `a = 3`,
`n = 5`.  The body has no exception handler: an `IndexError` raised
while computing a verdict, or a failure raised by the chart/notification
calls, propagates and ends the loop, leaving the remaining metrics
unvisited.  Failures of the external collaborators are injected through
the oracle `notifyOk`. -/

/-- The configured metric list of `get_alert`. -/
def metrics_list : List String :=
  ["users_feed", "views", "likes", "ctr", "users_message", "messages"]

/-- The verdict the loop body computes for one metric. -/
def metricVerdict (data : String → Series) (m : String) : Option Bool :=
  if m = "ctr" then check_anomaly_ctr (data m) else check_anomaly (data m) 3 5

/-- Outcome of one `get_alert` run: the metrics fully processed, the
metrics whose alert was emitted, and the metric (if any) whose raised
error ended the loop. -/
structure RunResult where
  processed : List String
  sent : List String
  failed : Option String
deriving DecidableEq

/-- The `for metric in metrics_list` loop of `get_alert` over a remaining
metric list: evaluate the metric; on an alert, emit the message and chart
(`notifyOk` says whether rendering/delivery succeeds); any raised error
ends the loop with the remaining metrics unprocessed. -/
def runMetrics (data : String → Series) (notifyOk : String → Bool) :
    List String → RunResult
  | [] => ⟨[], [], none⟩
  | m :: rest =>
    match metricVerdict data m with
    | none => ⟨[], [], some m⟩
    | some false =>
      let r := runMetrics data notifyOk rest
      ⟨m :: r.processed, r.sent, r.failed⟩
    | some true =>
      if notifyOk m then
        let r := runMetrics data notifyOk rest
        ⟨m :: r.processed, m :: r.sent, r.failed⟩
      else ⟨[], [], some m⟩

/-- The `get_alert` task body: run the loop over the configured metrics. -/
def get_alert (data : String → Series) (notifyOk : String → Bool) : RunResult :=
  runMetrics data notifyOk metrics_list

/-! ### Alert-message percent change

The message template formats `1 - df[metric].iloc[-1]/df[metric].iloc[-2]`
with `:.2%`.  The rendering below models Python's `%` formatting for
values that are exact multiples of 1/10000, which the claims use. -/

/-- The percent change put into the alert message: `1 - current/previous`. -/
def percentChange (cur prev : ℚ) : ℚ := 1 - cur / prev

/-- Two-digit rendering of a remainder in `0 .. 99`. -/
def pad2 (r : ℤ) : String := if r < 10 then "0" ++ toString r else toString r

/-- Rendering of a nonnegative number of hundredths of a percent. -/
def renderBps (z : ℤ) : String := toString (z / 100) ++ "." ++ pad2 (z % 100) ++ "%"

/-- Python `:.2%` formatting: the value times 100, rounded to two decimal
places, with a trailing `%`. -/
def formatPct2 (x : ℚ) : String :=
  let z : ℤ := round (x * 10000)
  if z < 0 then "-" ++ renderBps (-z) else renderBps z

/-! ### Supporting lemmas -/

lemma sortQ_sorted (l : List ℚ) : (sortQ l).Sorted (· ≤ ·) :=
  List.sorted_insertionSort _ l

lemma sortQ_length (l : List ℚ) : (sortQ l).length = l.length :=
  List.length_insertionSort _ l

lemma sorted_getD_mono {s : List ℚ} (hs : s.Sorted (· ≤ ·)) {i j : ℕ}
    (hij : i ≤ j) (hj : j < s.length) (d e : ℚ) :
    s.getD i d ≤ s.getD j e := by
  have hi : i < s.length := lt_of_le_of_lt hij hj
  rw [List.getD_eq_getElem s d hi, List.getD_eq_getElem s e hj]
  have h2 := hs.rel_get_of_le
    (Fin.mk_le_mk.mpr hij : (⟨i, hi⟩ : Fin s.length) ≤ ⟨j, hj⟩)
  simpa using h2

lemma rankIdx_cast {h : ℚ} (h0 : 0 ≤ h) : ((rankIdx h : ℕ) : ℚ) = (h.floor : ℚ) := by
  exact_mod_cast congrArg (Int.cast : ℤ → ℚ)
    (Int.toNat_of_nonneg (Int.floor_nonneg.mpr h0))

lemma rankIdx_le {h : ℚ} (h0 : 0 ≤ h) : (rankIdx h : ℚ) ≤ h := by
  rw [rankIdx_cast h0]; exact Int.floor_le h

lemma lt_rankIdx_add_one {h : ℚ} (h0 : 0 ≤ h) : h < (rankIdx h : ℚ) + 1 := by
  rw [rankIdx_cast h0]; exact Int.lt_floor_add_one h

lemma rankIdx_mono {h₁ h₂ : ℚ} (h12 : h₁ ≤ h₂) : rankIdx h₁ ≤ rankIdx h₂ :=
  Int.toNat_le_toNat (Int.floor_le_floor h12)

/-- Linear interpolation in a sorted list is monotone in the rank. -/
lemma interpAt_mono {s : List ℚ} (hs : s.Sorted (· ≤ ·)) {h₁ h₂ : ℚ}
    (h0 : 0 ≤ h₁) (h12 : h₁ ≤ h₂) (hup : h₂ ≤ (s.length : ℚ) - 1) :
    interpAt s h₁ ≤ interpAt s h₂ := by
  have h02 : 0 ≤ h₂ := le_trans h0 h12
  have hle₁ : (rankIdx h₁ : ℚ) ≤ h₁ := rankIdx_le h0
  have hlt₁ : h₁ < (rankIdx h₁ : ℚ) + 1 := lt_rankIdx_add_one h0
  have hle₂ : (rankIdx h₂ : ℚ) ≤ h₂ := rankIdx_le h02
  have hlt₂ : h₂ < (rankIdx h₂ : ℚ) + 1 := lt_rankIdx_add_one h02
  have hf12 : rankIdx h₁ ≤ rankIdx h₂ := rankIdx_mono h12
  have hlen2 : rankIdx h₂ < s.length := by
    by_contra hcon
    push_neg at hcon
    have hcon' : (s.length : ℚ) ≤ (rankIdx h₂ : ℚ) := by exact_mod_cast hcon
    linarith
  simp only [interpAt]
  set f₁ := rankIdx h₁ with hf₁
  set f₂ := rankIdx h₂ with hf₂
  set a₁ := s.getD f₁ 0 with ha₁
  set a₂ := s.getD f₂ 0 with ha₂
  set b₁ := s.getD (f₁ + 1) a₁ with hb₁
  set b₂ := s.getD (f₂ + 1) a₂ with hb₂
  have hab₁ : a₁ ≤ b₁ := by
    rcases lt_or_le (f₁ + 1) s.length with hlt | hge
    · exact sorted_getD_mono hs (Nat.le_succ f₁) hlt 0 a₁
    · rw [hb₁, List.getD_eq_default _ _ hge]
  have hab₂ : a₂ ≤ b₂ := by
    rcases lt_or_le (f₂ + 1) s.length with hlt | hge
    · exact sorted_getD_mono hs (Nat.le_succ f₂) hlt 0 a₂
    · rw [hb₂, List.getD_eq_default _ _ hge]
  rcases eq_or_lt_of_le hf12 with heq | hlt12
  · have hcast : (f₁ : ℚ) = (f₂ : ℚ) := by exact_mod_cast congrArg Nat.cast heq
    have hA : a₁ = a₂ := by rw [ha₁, ha₂, heq]
    have hB : b₁ = b₂ := by rw [hb₁, hb₂, heq, hA]
    rw [← hA, ← hB, ← hcast]
    nlinarith [mul_le_mul_of_nonneg_right (sub_le_sub_right h12 (f₁ : ℚ))
        (sub_nonneg.mpr hab₁)]
  · have hstep : f₁ + 1 ≤ f₂ := hlt12
    have hba : b₁ ≤ a₂ := by
      rw [hb₁, ha₂]; exact sorted_getD_mono hs hstep hlen2 a₁ 0
    have hup₁ : a₁ + (h₁ - (f₁ : ℚ)) * (b₁ - a₁) ≤ b₁ := by
      nlinarith [mul_nonneg (by linarith : (0:ℚ) ≤ 1 - (h₁ - (f₁ : ℚ)))
          (sub_nonneg.mpr hab₁)]
    have hlo₂ : a₂ ≤ a₂ + (h₂ - (f₂ : ℚ)) * (b₂ - a₂) := by
      nlinarith [mul_nonneg (by linarith : (0:ℚ) ≤ h₂ - (f₂ : ℚ))
          (sub_nonneg.mpr hab₂)]
    linarith

lemma interpAt_nil (h : ℚ) : interpAt [] h = 0 := by
  simp [interpAt]

/-- The linear-interpolation quantile is monotone in the quantile level. -/
lemma quantile_mono {p q : ℚ} (hp : 0 ≤ p) (hpq : p ≤ q) (hq : q ≤ 1)
    (l : List ℚ) : quantile p l ≤ quantile q l := by
  rcases eq_or_ne l [] with rfl | hne
  · simp [quantile, sortQ, List.insertionSort, interpAt_nil]
  · have hlen : 1 ≤ l.length := List.length_pos.mpr hne
    have hlenq : (1:ℚ) ≤ (l.length : ℚ) := by exact_mod_cast hlen
    apply interpAt_mono (sortQ_sorted l)
    · exact mul_nonneg hp (by linarith)
    · exact mul_le_mul_of_nonneg_right hpq (by linarith)
    · rw [sortQ_length]
      nlinarith

lemma q25_le_q75_val (w : List ℚ) : quantile (1/4) w ≤ quantile (3/4) w :=
  quantile_mono (by norm_num) (by norm_num) (by norm_num) w

/-- `lowRaw` as a single map over the lagged window. -/
lemma lowRaw_eq_map (xs : Series) (a : ℚ) (n i : ℕ) :
    lowRaw xs a n i = (lagWindow xs n i).map
      (fun w => quantile (1/4) w - a * (quantile (3/4) w - quantile (1/4) w)) := by
  cases hw : lagWindow xs n i <;>
    simp [lowRaw, q25, q75, iqr, hw]

/-- `upRaw` as a single map over the lagged window. -/
lemma upRaw_eq_map (xs : Series) (a : ℚ) (n i : ℕ) :
    upRaw xs a n i = (lagWindow xs n i).map
      (fun w => quantile (3/4) w + a * (quantile (3/4) w - quantile (1/4) w)) := by
  cases hw : lagWindow xs n i <;>
    simp [upRaw, q25, q75, iqr, hw]

/-- Filtering two aligned optional columns through the same index list
keeps the lengths equal and compares the sums. -/
lemma filterMap_len_sum_le {g h : ℕ → Option ℚ}
    (hiff : ∀ j, g j = none ↔ h j = none)
    (hle : ∀ j x y, g j = some x → h j = some y → x ≤ y) :
    ∀ L : List ℕ, (L.filterMap g).length = (L.filterMap h).length ∧
      (L.filterMap g).sum ≤ (L.filterMap h).sum := by
  intro L
  induction L with
  | nil => simp
  | cons j t ih =>
    cases hg : g j with
    | none =>
      have hh : h j = none := (hiff j).mp hg
      simpa [List.filterMap_cons, hg, hh] using ih
    | some x =>
      cases hh : h j with
      | none => exact absurd ((hiff j).mpr hh) (by simp [hg])
      | some y =>
        have hxy : x ≤ y := hle j x y hg hh
        simp only [List.filterMap_cons, hg, hh, List.length_cons, List.sum_cons]
        exact ⟨by rw [ih.1], add_le_add hxy ih.2⟩

/-- Pointwise comparison of two defined smoothed means with aligned
definedness of the underlying columns. -/
lemma smoothAt_mono {g h : ℕ → Option ℚ}
    (hiff : ∀ j, g j = none ↔ h j = none)
    (hle : ∀ j x y, g j = some x → h j = some y → x ≤ y)
    {len n i : ℕ} {x y : ℚ}
    (hx : smoothAt g len n i = some x) (hy : smoothAt h len n i = some y) :
    x ≤ y := by
  obtain ⟨hlen, hsum⟩ := filterMap_len_sum_le hiff hle (centerIdx len n i)
  by_cases h0 : ((centerIdx len n i).filterMap g).length = 0
  · simp [smoothAt, h0] at hx
  · have h0' : ((centerIdx len n i).filterMap h).length ≠ 0 := by omega
    simp only [smoothAt, h0, h0', if_false, Option.some.injEq] at hx hy
    have hpos : (0:ℚ) ≤ (((centerIdx len n i).filterMap h).length : ℚ) := by
      positivity
    rw [← hx, ← hy, hlen]
    exact div_le_div_of_nonneg_right hsum hpos

/-- The lagged source window equals the spec's "values immediately
preceding `i`". -/
lemma lagWindow_eq_spec_window (xs : Series) (n i : ℕ) :
    lagWindow xs n i = spec_window xs n i := by
  unfold lagWindow spec_window
  rcases le_or_lt n i with hni | hni
  · rw [if_pos hni, if_pos hni, List.drop_take, Nat.sub_sub_self hni]
  · rw [if_neg (not_le.mpr hni), if_neg (not_le.mpr hni)]

/-- For an odd window, the pandas centered window equals the spec's
`i - ⌊w/2⌋ .. i + ⌊w/2⌋` window. -/
lemma centerIdx_eq_spec (len n i : ℕ) (hodd : n % 2 = 1) :
    centerIdx len n i = spec_centerIdx len n i := by
  unfold centerIdx spec_centerIdx
  apply List.filter_congr
  intro j _
  exact decide_eq_decide.mpr (by omega)

lemma q25_eq_spec (xs : Series) (n i : ℕ) : q25 xs n i = spec_q25 xs n i := by
  unfold q25 spec_q25; rw [lagWindow_eq_spec_window]

lemma q75_eq_spec (xs : Series) (n i : ℕ) : q75 xs n i = spec_q75 xs n i := by
  unfold q75 spec_q75; rw [lagWindow_eq_spec_window]

lemma iqr_eq_spec (xs : Series) (n i : ℕ) : iqr xs n i = spec_iqr xs n i := by
  unfold iqr spec_iqr; rw [q25_eq_spec, q75_eq_spec]

lemma upRaw_eq_spec (xs : Series) (a : ℚ) (n i : ℕ) :
    upRaw xs a n i = spec_upRaw xs a n i := by
  unfold upRaw spec_upRaw; rw [q75_eq_spec, iqr_eq_spec]

lemma lowRaw_eq_spec (xs : Series) (a : ℚ) (n i : ℕ) :
    lowRaw xs a n i = spec_lowRaw xs a n i := by
  unfold lowRaw spec_lowRaw; rw [q25_eq_spec, iqr_eq_spec]

/-! ### Claim theorems -/

/-- C1: for every metric series and every position `i`, with an odd
window size (the estimator's `window_size` is 5), the adaptive estimator
computes the envelope exactly as the spec states it: `q25[i]`/`q75[i]`
are the percentiles of the `window_size` values strictly preceding `i`
(shift by one), `iqr = q75 - q25`, the raw bounds are
`q75 + a*iqr` / `q25 - a*iqr`, and the final bounds are the centered
moving average of width `window_size` of the raw bounds, clipped at the
series edges with a minimum of one sample. -/
theorem adaptive_envelope_matches_spec (xs : Series) (a : ℚ) (n i : ℕ)
    (hodd : n % 2 = 1) :
    q25 xs n i = spec_q25 xs n i ∧ q75 xs n i = spec_q75 xs n i ∧
    iqr xs n i = spec_iqr xs n i ∧ upRaw xs a n i = spec_upRaw xs a n i ∧
    lowRaw xs a n i = spec_lowRaw xs a n i ∧
    low xs a n i = spec_low xs a n i ∧ up xs a n i = spec_up xs a n i := by
  refine ⟨q25_eq_spec xs n i, q75_eq_spec xs n i, iqr_eq_spec xs n i,
    upRaw_eq_spec xs a n i, lowRaw_eq_spec xs a n i, ?_, ?_⟩
  · unfold low smoothAt spec_low
    rw [centerIdx_eq_spec xs.length n i hodd]
    rw [show lowRaw xs a n = spec_lowRaw xs a n from
      funext fun j => lowRaw_eq_spec xs a n j]
  · unfold up smoothAt spec_up
    rw [centerIdx_eq_spec xs.length n i hodd]
    rw [show upRaw xs a n = spec_upRaw xs a n from
      funext fun j => upRaw_eq_spec xs a n j]

/-- C1 witness: the refinement instantiated at the scenario series with
the estimator's actual parameters `a = 3`, `n = 5`, at the last
position. -/
theorem adaptive_envelope_matches_spec_witness :
    5 % 2 = 1 ∧
    (q25 [10, 12, 11, 13, 90, 91] 5 5 = spec_q25 [10, 12, 11, 13, 90, 91] 5 5 ∧
     q75 [10, 12, 11, 13, 90, 91] 5 5 = spec_q75 [10, 12, 11, 13, 90, 91] 5 5 ∧
     iqr [10, 12, 11, 13, 90, 91] 5 5 = spec_iqr [10, 12, 11, 13, 90, 91] 5 5 ∧
     upRaw [10, 12, 11, 13, 90, 91] 3 5 5 = spec_upRaw [10, 12, 11, 13, 90, 91] 3 5 5 ∧
     lowRaw [10, 12, 11, 13, 90, 91] 3 5 5 = spec_lowRaw [10, 12, 11, 13, 90, 91] 3 5 5 ∧
     low [10, 12, 11, 13, 90, 91] 3 5 5 = spec_low [10, 12, 11, 13, 90, 91] 3 5 5 ∧
     up [10, 12, 11, 13, 90, 91] 3 5 5 = spec_up [10, 12, 11, 13, 90, 91] 3 5 5) :=
  ⟨by decide, adaptive_envelope_matches_spec [10, 12, 11, 13, 90, 91] 3 5 5 (by decide)⟩

/-- C2: in both strategies, `is_alert` is true iff the latest value lies
strictly below the last lower bound or strictly above the last upper
bound; a value exactly on a bound does not alert. -/
theorem alert_iff_strictly_outside (xs ys : Series) (a : ℚ) (n : ℕ)
    (v l u w : ℚ)
    (hv : xs.getLast? = some v)
    (hl : low xs a n (xs.length - 1) = some l)
    (hu : up xs a n (xs.length - 1) = some u)
    (hw : ys.getLast? = some w) :
    (check_anomaly xs a n = some true ↔ (v < l ∨ u < v)) ∧
    (check_anomaly_ctr ys = some true ↔ (w < ctr_low ∨ ctr_up < w)) := by
  constructor
  · simp [check_anomaly, hv, hl, hu]
  · simp [check_anomaly_ctr, hw]

/-- C2 witness: the equivalence instantiated at the scenario series
(last value 91, bounds 5 and 19) and a CTR series ending at 0.25. -/
theorem alert_iff_strictly_outside_witness :
    (check_anomaly [10, 12, 11, 13, 90, 91] 3 5 = some true ↔
      ((91:ℚ) < 5 ∨ (19:ℚ) < 91)) ∧
    (check_anomaly_ctr [21/100, 25/100] = some true ↔
      ((25:ℚ)/100 < ctr_low ∨ ctr_up < 25/100)) :=
  alert_iff_strictly_outside [10, 12, 11, 13, 90, 91] [21/100, 25/100] 3 5
    91 5 19 (25/100)
    (by with_unfolding_all rfl) (by with_unfolding_all rfl)
    (by with_unfolding_all rfl) (by with_unfolding_all rfl)

/-- C3: on the series `[10, 12, 11, 13, 90, 91]` with `window_size = 5`
and `spread_factor = 3`, the adaptive estimator flags the last value. -/
theorem scenario_series_alerts :
    check_anomaly [10, 12, 11, 13, 90, 91] 3 5 = some true := by
  with_unfolding_all rfl

/-- C4: for every series, every positive spread factor and every
position where both adaptive bounds are defined, `low ≤ up`; the fixed
strategy's constant bounds also satisfy `low ≤ up`. -/
theorem low_le_up_wherever_defined (xs : Series) (a : ℚ) (n i : ℕ)
    (l u : ℚ) (ha : 0 < a)
    (hl : low xs a n i = some l) (hu : up xs a n i = some u) :
    l ≤ u ∧ ctr_low ≤ ctr_up := by
  constructor
  · apply smoothAt_mono ?_ ?_ hl hu
    · intro j
      rw [lowRaw_eq_map, upRaw_eq_map]
      cases lagWindow xs n j <;> simp
    · intro j x y hx hy
      rw [lowRaw_eq_map] at hx
      rw [upRaw_eq_map] at hy
      cases hw : lagWindow xs n j with
      | none => rw [hw] at hx; simp at hx
      | some w =>
        rw [hw] at hx hy
        simp only [Option.map_some', Option.some.injEq] at hx hy
        have hq : quantile (1/4) w ≤ quantile (3/4) w := q25_le_q75_val w
        have hnn : 0 ≤ a * (quantile (3/4) w - quantile (1/4) w) :=
          mul_nonneg ha.le (sub_nonneg.mpr hq)
        rw [← hx, ← hy]
        linarith
  · unfold ctr_low ctr_up
    norm_num

/-- C4 witness: the invariant instantiated at the scenario series, where
the last bounds are `low = 5` and `up = 19`. -/
theorem low_le_up_wherever_defined_witness :
    (0:ℚ) < 3 ∧ ((5:ℚ) ≤ 19 ∧ ctr_low ≤ ctr_up) :=
  ⟨by with_unfolding_all rfl,
   low_le_up_wherever_defined [10, 12, 11, 13, 90, 91] 3 5 5 5 19
     (by with_unfolding_all rfl)
     (by with_unfolding_all rfl) (by with_unfolding_all rfl)⟩

/-- Data oracle for the dispatcher counterexample: the `users_feed`
series is the alerting scenario series, every other metric is flat. -/
def data0 : String → Series := fun m =>
  if m = "users_feed" then [10, 12, 11, 13, 90, 91] else [10, 10, 10, 10, 10, 10]

/-- Failure oracle: message delivery (or chart rendering) raises for the
`users_feed` metric and succeeds for every other metric. -/
def notify0 : String → Bool := fun m => !(m == "users_feed")

/-- C5 counterexample: when delivery fails for `users_feed` (the first
metric of the configured list), the run aborts with no other metric
processed — the failure is not isolated to that metric, contradicting
the claim that the batch continues. -/
theorem notify_failure_aborts_batch :
    (get_alert data0 notify0).failed = some "users_feed" ∧
    (get_alert data0 notify0).processed = [] := by
  constructor <;> with_unfolding_all rfl

/-- C5 amended: a chart-rendering or delivery failure for one metric
ends the run — the loop has no per-metric error isolation, so the
metrics after the failing one are never evaluated (recovery is only the
scheduler's whole-task retry). -/
theorem failure_ends_run (data : String → Series) (notifyOk : String → Bool) :
    ∀ (l : List String) (m : String),
      (runMetrics data notifyOk l).failed = some m →
      ∃ pre post, l = pre ++ m :: post ∧
        (runMetrics data notifyOk l).processed = pre := by
  intro l
  induction l with
  | nil => intro m hfail; simp [runMetrics] at hfail
  | cons m' t ih =>
    intro m hfail
    cases hv : metricVerdict data m' with
    | none =>
      simp only [runMetrics, hv] at hfail ⊢
      obtain rfl : m' = m := by simpa using hfail
      exact ⟨[], t, rfl, by simp⟩
    | some b =>
      cases b with
      | false =>
        simp only [runMetrics, hv] at hfail ⊢
        obtain ⟨pre, post, hsplit, hproc⟩ := ih m hfail
        exact ⟨m' :: pre, post, by rw [hsplit]; rfl, by rw [hproc]⟩
      | true =>
        by_cases hok : notifyOk m'
        · simp only [runMetrics, hv, hok, if_true] at hfail ⊢
          obtain ⟨pre, post, hsplit, hproc⟩ := ih m hfail
          exact ⟨m' :: pre, post, by rw [hsplit]; rfl, by rw [hproc]⟩
        · simp only [runMetrics, hv, hok, if_false] at hfail ⊢
          obtain rfl : m' = m := by simpa using hfail
          exact ⟨[], t, rfl, by simp⟩

/-- C5 amended witness: the abort shape instantiated at the concrete
failing run over the configured metric list. -/
theorem failure_ends_run_witness :
    ∃ pre post, metrics_list = pre ++ "users_feed" :: post ∧
      (runMetrics data0 notify0 metrics_list).processed = pre :=
  failure_ends_run data0 notify0 metrics_list "users_feed"
    (by with_unfolding_all rfl)

/-- C6 counterexample: for current 80 and previous 100 the message's
percent change is `1 - 80/100 = 0.20`, rendered `20.00%` — it is not the
value `-25.00%` the claim states. -/
theorem pct_change_not_minus_25 :
    percentChange 80 100 = 1/5 ∧
    formatPct2 (percentChange 80 100) ≠ "-25.00%" := by
  constructor
  · with_unfolding_all rfl
  · intro hcon
    have h20 : formatPct2 (percentChange 80 100) = "20.00%" := by
      with_unfolding_all rfl
    rw [h20] at hcon
    simp at hcon

/-- C6 amended: the percent change placed in the alert message for
current 80 and previous 100 is `1 - 80/100 = 0.20`, displayed as the
string `20.00%` (the formula does not produce the true signed relative
change). -/
theorem pct_change_is_20_percent :
    percentChange 80 100 = 1/5 ∧
    formatPct2 (percentChange 80 100) = "20.00%" := by
  constructor <;> with_unfolding_all rfl

/-- C7 counterexample: the empty series is shorter than any strategy's
minimum window, yet the estimator does not degrade to "no verdict" — it
raises (`none` models the `IndexError`), which would crash the run. -/
theorem empty_series_no_graceful_verdict :
    check_anomaly [] 3 5 = none := by
  with_unfolding_all rfl

/-- C7 amended: for every nonempty series shorter than
`window_size + 1`, the adaptive estimator returns no alert and raises no
error, so the dispatcher loop continues with the remaining metrics; on
an empty series, however, reading the latest observation raises. -/
theorem short_series_no_alert (xs : Series) (a : ℚ) (n : ℕ)
    (hne : xs ≠ []) (hshort : xs.length < n + 1) :
    check_anomaly xs a n = some false := by
  obtain ⟨v, hv⟩ : ∃ v, xs.getLast? = some v := by
    cases h : xs.getLast? with
    | none => exact absurd (List.getLast?_eq_none_iff.mp h) hne
    | some v => exact ⟨v, rfl⟩
  have hnil : ∀ g : ℕ → Option ℚ,
      (∀ j, ¬ n ≤ j → g j = none) →
      (centerIdx xs.length n (xs.length - 1)).filterMap g = [] := by
    intro g hg
    rw [List.filterMap_eq_nil_iff]
    intro j hj
    simp only [centerIdx, List.mem_filter, List.mem_range] at hj
    exact hg j (by omega)
  have hlow : low xs a n (xs.length - 1) = none := by
    unfold low smoothAt
    rw [hnil (lowRaw xs a n)
      (fun j hj => by rw [lowRaw_eq_map]; simp [lagWindow, hj])]
    simp
  have hup : up xs a n (xs.length - 1) = none := by
    unfold up smoothAt
    rw [hnil (upRaw xs a n)
      (fun j hj => by rw [upRaw_eq_map]; simp [lagWindow, hj])]
    simp
  simp [check_anomaly, hv, hlow, hup]

/-- C7 amended witness: a one-element series with the default window
yields a quiet no-alert verdict. -/
theorem short_series_no_alert_witness :
    ([(10:ℚ)] ≠ []) ∧ [(10:ℚ)].length < 5 + 1 ∧
    check_anomaly [10] 3 5 = some false :=
  ⟨by simp, by simp,
   short_series_no_alert [10] 3 5 (by simp) (by simp)⟩

/-- C8: the fixed strategy's verdict depends only on the latest value —
two series with the same last value get the same verdict. -/
theorem ctr_verdict_last_value_only (xs ys : Series)
    (h : xs.getLast? = ys.getLast?) :
    check_anomaly_ctr xs = check_anomaly_ctr ys := by
  unfold check_anomaly_ctr
  rw [h]

/-- C8 witness: two series with very different histories but the same
last value `0.21` get the same verdict. -/
theorem ctr_verdict_last_value_only_witness :
    check_anomaly_ctr [1, 21/100] = check_anomaly_ctr [5, 7, 9, 21/100] :=
  ctr_verdict_last_value_only [1, 21/100] [5, 7, 9, 21/100] rfl

/-- C9: both estimators return the frame with the timestamp, date,
time-of-day label and metric-value columns unchanged; only the envelope
annotation columns are written. -/
theorem estimators_preserve_series_columns (f : Frame) (a : ℚ) (n : ℕ) :
    ((check_anomaly_frame f a n).2.ts = f.ts ∧
     (check_anomaly_frame f a n).2.date = f.date ∧
     (check_anomaly_frame f a n).2.hm = f.hm ∧
     (check_anomaly_frame f a n).2.value = f.value) ∧
    ((check_anomaly_ctr_frame f).2.ts = f.ts ∧
     (check_anomaly_ctr_frame f).2.date = f.date ∧
     (check_anomaly_ctr_frame f).2.hm = f.hm ∧
     (check_anomaly_ctr_frame f).2.value = f.value) :=
  ⟨⟨rfl, rfl, rfl, rfl⟩, ⟨rfl, rfl, rfl, rfl⟩⟩

/-- C10: on an empty series both strategies raise an out-of-range index
error when reading the latest observation (`none` models the raised
`IndexError`), rather than returning any verdict. -/
theorem empty_series_raises (a : ℚ) (n : ℕ) :
    check_anomaly [] a n = none ∧ check_anomaly_ctr [] = none :=
  ⟨rfl, rfl⟩

end AlertSystem
